import Mathlib

/-!
Verification development for the dynamo-studio pagination / search-dispatch core.

The definitions below are a shallow embedding of two source files:

* `src/app/api/tables/[name]/items/route.ts` — the `GET` handler that dispatches
  a request among three retrieval strategies (plain paginated scan, exact
  partition-key query, begins_with-filtered scan loop).
* `src/components/DynamoStudio.tsx` — the client-side cursor-stack pagination
  state machine, the approximate page-count estimator, and the per-page sort.

The DynamoDB backend is external to the repository; it is modelled as an
abstract `Store` of response functions.  The handler is instrumented to return,
alongside its response, the trace of commands it sent to the store, so that
claims about *which* store calls a dispatch issues become statements about the
trace.  Continuation keys and rows are opaque to the handler, so the embedding
is polymorphic in the key type `κ` and the row type `ρ`.
-/

namespace DynamoStudio

/-- Model of the begins_with FilterExpression the route builds:
`begins_with(#pk, :search)` with an optional `OR begins_with(#sk, :search)`
half when the table has a sort key. -/
structure FilterExpr where
  pkAttr : String
  skAttr : Option String
  term : String
deriving DecidableEq, Repr

/-- Model of a `ScanCommand` as the route issues it: table name, optional
filter expression, optional `Limit`, optional `ExclusiveStartKey`. -/
structure ScanReq (κ : Type) where
  table : String
  filter : Option FilterExpr
  limit : Option Nat
  startKey : Option κ
deriving DecidableEq, Repr

/-- Model of a `QueryCommand` as the route issues it: exact equality of the
partition-key attribute against the search term, with no `Limit`. -/
structure QueryReq where
  table : String
  pkAttr : String
  term : String
deriving DecidableEq, Repr

/-- A store page: `Items` plus optional `LastEvaluatedKey`. -/
structure ScanRes (κ ρ : Type) where
  items : List ρ
  lastEvaluatedKey : Option κ
deriving DecidableEq, Repr

/-- Abstract model of the DynamoDB document client (`dynamo.send`): the
behavior of the three read commands the `GET` handler can issue.
`query` returns `Except Unit` because `QueryCommand` can throw (e.g. when the
search term's type does not match the partition key's declared type); the
route wraps it in a bare try/catch. -/
structure Store (κ ρ : Type) where
  keySchema : String → String × Option String
  query : QueryReq → Except Unit (List ρ)
  scan : ScanReq κ → ScanRes κ ρ

/-- One command sent to the store, recorded in the dispatch trace. -/
inductive Cmd (κ : Type) where
  | describe (table : String)
  | query (req : QueryReq)
  | scan (req : ScanReq κ)
deriving DecidableEq, Repr

/-- Whether a traced command is a `ScanCommand`. -/
def Cmd.isScan {κ : Type} : Cmd κ → Bool
  | .scan _ => true
  | _ => false

/-- The JSON body of a successful `GET` response: `items`, `lastKey`, and the
`searchStrategy` field (absent on the plain-scan path). -/
structure ItemsResponse (κ ρ : Type) where
  items : List ρ
  lastKey : Option κ
  searchStrategy : Option String
deriving DecidableEq, Repr

/-- Executable model of JavaScript `String.prototype.trim`: strip leading
and trailing whitespace.  (The built-in `String.trim` is not used because its
implementation does not reduce in the kernel.) -/
def jsTrim (s : String) : String :=
  ⟨((s.data.dropWhile Char.isWhitespace).reverse.dropWhile Char.isWhitespace).reverse⟩

/-- The effective page limit:
`Math.min(Number(searchParams.get("limit") ?? 25), 1000)` — default 25,
capped at 1000, with no lower bound applied. -/
def effectiveLimit (limitParam : Option Nat) : Nat :=
  min (limitParam.getD 25) 1000

/-- The search-branch scan loop of the `GET` handler (the `do … while` over
`ScanCommand` pages): each iteration scans with the filter expression and the
carried cursor, appends the returned items, then breaks once `limit` rows are
collected or the store reports no `LastEvaluatedKey`.  The loop is driven by
store responses, so it is written on explicit fuel; `none` means the model ran
out of fuel before the loop finished.  Returns the accumulated rows, the final
`lastEvaluatedKey`, and the trace of issued scans. -/
def scanSearchLoop {κ ρ : Type} (store : Store κ ρ) (table : String)
    (fe : FilterExpr) (limit : Nat) :
    Nat → List ρ → Option κ → Option (List ρ × Option κ × List (Cmd κ))
  | 0, _, _ => none
  | fuel + 1, collected, cursor =>
    let req : ScanReq κ := ⟨table, some fe, none, cursor⟩
    let res := store.scan req
    let collected2 := collected ++ res.items
    let lek := res.lastEvaluatedKey
    if limit ≤ collected2.length then
      some (collected2, lek, [Cmd.scan req])
    else
      match lek with
      | none => some (collected2, none, [Cmd.scan req])
      | some k =>
        match scanSearchLoop store table fe limit fuel collected2 (some k) with
        | none => none
        | some (c, l, t) => some (c, l, Cmd.scan req :: t)

/-- The `GET` handler of `src/app/api/tables/[name]/items/route.ts`,
instrumented with the trace of store commands.  `limitParam` is the parsed
`?limit=` value, `startKey` the decoded `?startKey=`, `searchParam` the raw
`?search=` value (`none` when absent).  `fuel` bounds the internal scan loop;
`none` means the loop did not finish within the fuel. -/
def getItems {κ ρ : Type} (store : Store κ ρ) (fuel : Nat) (table : String)
    (limitParam : Option Nat) (startKey : Option κ) (searchParam : Option String) :
    Option (ItemsResponse κ ρ × List (Cmd κ)) :=
  let limit := effectiveLimit limitParam
  let searchTerm := (searchParam.map jsTrim).getD ""
  if searchTerm = "" then
    -- No search term → normal paginated Scan with Limit and no filter.
    let req : ScanReq κ := ⟨table, none, some limit, startKey⟩
    let res := store.scan req
    some (⟨res.items, res.lastEvaluatedKey, none⟩, [Cmd.scan req])
  else
    -- Search term present → resolve key schema (DescribeTable), then try the
    -- exact-PK QueryCommand, falling back to the begins_with scan loop.
    let ks := store.keySchema table
    let qreq : QueryReq := ⟨table, ks.1, searchTerm⟩
    let fe : FilterExpr := ⟨ks.1, ks.2, searchTerm⟩
    let fallback : Option (ItemsResponse κ ρ × List (Cmd κ)) :=
      match scanSearchLoop store table fe limit fuel [] startKey with
      | none => none
      | some (collected, lek, scans) =>
        some (⟨collected.take limit,
               if limit ≤ collected.length then lek else none,
               some "scan-begins-with-pk-sk"⟩,
              Cmd.describe table :: Cmd.query qreq :: scans)
    match store.query qreq with
    | .ok exactItems =>
      if 0 < exactItems.length then
        some (⟨exactItems.take limit, none, some "query-exact-pk"⟩,
              [Cmd.describe table, Cmd.query qreq])
      else fallback
    | .error _ => fallback

/-!
## Cursor-stack pagination state machine (`src/components/DynamoStudio.tsx`)

The component's navigation-relevant state and the handlers that mutate it:
`goNextPage`, `goPrevPage`, `changePageSize`, `commitSearch`, `clearSearch`,
`switchTable`.  Each handler calls the async `fetchItems` helper; the outcome
of that external call (`ok` page or thrown error) is embedded in the action,
so each handler becomes a pure transition on the state.
-/

/-- Result of a successful `fetchItems` call: the page's items and `lastKey`. -/
structure FetchResult (κ ρ : Type) where
  items : List ρ
  lastKey : Option κ
deriving DecidableEq, Repr

/-- The navigation-relevant slice of the `DynamoStudio` component state. -/
structure NavState (κ ρ : Type) where
  activeTable : String
  activeSearch : String
  pageSize : Nat
  currentPage : Nat
  cursorStack : List (Option κ)
  lastKey : Option κ
  items : List ρ
deriving DecidableEq, Repr

/-- Initial state: `pageSize = 25`, `currentPage = 1`, `cursorStack = [null]`. -/
def initNavState (κ ρ : Type) : NavState κ ρ :=
  ⟨"", "", 25, 1, [none], none, []⟩

/-- A user navigation action together with the outcome of the `fetchItems`
call it triggers (`.error` models a rejected fetch, i.e. a store error). -/
inductive NavAction (κ ρ : Type) where
  | next (res : Except Unit (FetchResult κ ρ))
  | prev (res : Except Unit (FetchResult κ ρ))
  | setSize (n : Nat) (res : Except Unit (FetchResult κ ρ))
  | commit (term : String) (res : Except Unit (FetchResult κ ρ))
  | clear (res : Except Unit (FetchResult κ ρ))
  | switch (t : String) (res : Except Unit (FetchResult κ ρ))

/-- Whether the fetch embedded in the action succeeded. -/
def NavAction.ok {κ ρ : Type} : NavAction κ ρ → Prop
  | .next r | .prev r | .setSize _ r | .commit _ r | .clear r | .switch _ r =>
    ∃ v, r = .ok v

/-- The state transition of each handler, transcribed from `DynamoStudio.tsx`:

* `goNextPage`: guarded by `if (!lastKey) return`; on success pushes `lastKey`
  onto the stack, increments the page, and installs the fetched page; on a
  failed fetch nothing is mutated.
* `goPrevPage`: guarded by `if (currentPage <= 1) return`; on success installs
  the popped stack and decrements the page; on failure nothing is mutated.
* `changePageSize` / `commitSearch` / `clearSearch` / `switchTable`: these
  reset `currentPage` to 1 and `cursorStack` to `[null]` (and update
  `pageSize` / `activeSearch` / `activeTable`) *before* awaiting the fetch;
  only `items` / `lastKey` installation is guarded by success.
  (`switchTable` additionally clears `lastKey` up front.) -/
def navStep {κ ρ : Type} (s : NavState κ ρ) : NavAction κ ρ → NavState κ ρ
  | .next r =>
    match s.lastKey with
    | none => s
    | some _ =>
      match r with
      | .ok res =>
        { s with cursorStack := s.cursorStack ++ [s.lastKey],
                 currentPage := s.currentPage + 1,
                 items := res.items, lastKey := res.lastKey }
      | .error _ => s
  | .prev r =>
    if s.currentPage ≤ 1 then s
    else
      match r with
      | .ok res =>
        { s with cursorStack := s.cursorStack.dropLast,
                 currentPage := s.currentPage - 1,
                 items := res.items, lastKey := res.lastKey }
      | .error _ => s
  | .setSize n r =>
    let s1 := { s with pageSize := n, currentPage := 1, cursorStack := [none] }
    match r with
    | .ok res => { s1 with items := res.items, lastKey := res.lastKey }
    | .error _ => s1
  | .commit term r =>
    let s1 := { s with activeSearch := jsTrim term, currentPage := 1,
                       cursorStack := [none] }
    match r with
    | .ok res => { s1 with items := res.items, lastKey := res.lastKey }
    | .error _ => s1
  | .clear r =>
    let s1 := { s with activeSearch := "", currentPage := 1,
                       cursorStack := [none] }
    match r with
    | .ok res => { s1 with items := res.items, lastKey := res.lastKey }
    | .error _ => s1
  | .switch t r =>
    let s1 := { s with activeTable := t, activeSearch := "", currentPage := 1,
                       cursorStack := [none], lastKey := none }
    match r with
    | .ok res => { s1 with items := res.items, lastKey := res.lastKey }
    | .error _ => s1

/-- Reads `stack[stack.length - 1]`: the cursor belonging to the current page
(`null` when the stack holds only the page-1 sentinel). -/
def currentCursor {κ ρ : Type} (s : NavState κ ρ) : Option κ :=
  s.cursorStack.getLast?.getD none

/-- The `ExclusiveStartKey` each handler passes to `fetchItems`, or `none`
when the handler issues no fetch (guard failed): `goNextPage` fetches with
`lastKey`, `goPrevPage` with the top of the popped stack, and all reset-style
handlers with `null`. -/
def navFetchCursor {κ ρ : Type} (s : NavState κ ρ) : NavAction κ ρ → Option (Option κ)
  | .next _ =>
    match s.lastKey with
    | none => none
    | some k => some (some k)
  | .prev _ =>
    if s.currentPage ≤ 1 then none
    else some (s.cursorStack.dropLast.getLast?.getD none)
  | .setSize _ _ => some none
  | .commit _ _ => some none
  | .clear _ => some none
  | .switch _ _ => some none

/-- The cursor-stack invariant: the stack's length equals the page number and
its bottom entry is the page-1 `null` sentinel. -/
def NavInv {κ ρ : Type} (s : NavState κ ρ) : Prop :=
  s.cursorStack.length = s.currentPage ∧ s.cursorStack.head? = some none

/-!
## Approximate page-count estimator and per-page sort (`DynamoStudio.tsx`)
-/

/-- Approximate table stats from `DescribeTable` (`TableMeta` in the source). -/
structure TableMeta where
  itemCount : Nat
  sizeBytes : Nat
deriving DecidableEq, Repr

/-- Transcribes `approxTotalPages = tableMeta && !activeSearch
      ? Math.max(1, Math.ceil(tableMeta.itemCount / pageSize)) : null`.
Ceiling division on naturals is `(a + b - 1) / b`. -/
def approxTotalPages (tableMeta : Option TableMeta) (activeSearch : String)
    (pageSize : Nat) : Option Nat :=
  match tableMeta with
  | some m =>
    if activeSearch = "" then
      some (max 1 ((m.itemCount + pageSize - 1) / pageSize))
    else none
  | none => none

/-- A JavaScript attribute value as far as the sort comparator distinguishes
them: only `typeof v === "number"` matters structurally, everything else is
compared through `String(v)`.  Numbers are modelled as integers. -/
inductive JsValue where
  | num (n : Int)
  | str (s : String)
  | bool (b : Bool)
  | null
  | undefinedVal
deriving DecidableEq, Repr

/-- Computes `String(v)` for the modelled values (`String(undefined) = "undefined"`,
`String(null) = "null"`, booleans and integers print the JS way). -/
def JsValue.jsToString : JsValue → String
  | .num n => toString n
  | .str s => s
  | .bool b => if b then "true" else "false"
  | .null => "null"
  | .undefinedVal => "undefined"

/-- A row of the current page: attribute name → value. -/
def Item : Type := List (String × JsValue)

instance : DecidableEq Item := inferInstanceAs (DecidableEq (List (String × JsValue)))

/-- Reads `item[col]` — JS property access, `undefined` when the attribute is absent. -/
def Item.getAttr (it : Item) (col : String) : JsValue :=
  ((it.find? (fun p => p.1 = col)).map (fun p => p.2)).getD .undefinedVal

/-- The sort comparator body:
`typeof av === "number" && typeof bv === "number"
   ? av - bv : String(av).localeCompare(String(bv))`.
`lc` is the host's `localeCompare` (an external, locale-dependent function),
passed in as a parameter. -/
def itemCmp (lc : String → String → Int) (sortCol : String) (a b : Item) : Int :=
  match a.getAttr sortCol, b.getAttr sortCol with
  | .num x, .num y => x - y
  | av, bv => lc av.jsToString bv.jsToString

/-- Sort direction. -/
inductive SortDir where
  | asc
  | desc
deriving DecidableEq, Repr

/-- Transcribes `return sortDir === "asc" ? cmp : -cmp` — the descending comparator is
the negation of the ascending one. -/
def dirCmp {α : Type} (dir : SortDir) (cmp : α → α → Int) (a b : α) : Int :=
  match dir with
  | .asc => cmp a b
  | .desc => -(cmp a b)

/-- Stable insertion with respect to a JS-style comparator: `x` goes before
the first element `y` with `cmp x y ≤ 0`, so an earlier element stays before
later tied ones. -/
def insertCmp {α : Type} (cmp : α → α → Int) (x : α) : List α → List α
  | [] => [x]
  | y :: ys => if cmp x y ≤ 0 then x :: y :: ys else y :: insertCmp cmp x ys

/-- Stable comparator sort, modelling `Array.prototype.sort` (stable per
ECMA-262: ties keep their original order). -/
def stableSortCmp {α : Type} (cmp : α → α → Int) : List α → List α
  | [] => []
  | x :: xs => insertCmp cmp x (stableSortCmp cmp xs)

/-- Transcribes `const sorted = sortCol ? [...items].sort(comparator) : items`. -/
def sortedItems (lc : String → String → Int) (sortCol : Option String)
    (dir : SortDir) (items : List Item) : List Item :=
  match sortCol with
  | none => items
  | some col => stableSortCmp (dirCmp dir (itemCmp lc col)) items

/-- The comparator extended with the element's original position as a final
tie-break; sorting by it is by definition the order "by `cmp`, ties by fetch
order".  Used to state stability of `stableSortCmp`. -/
def idxCmp {α : Type} (cmp : α → α → Int) (a b : Nat × α) : Int :=
  if cmp a.2 b.2 = 0 then (a.1 : Int) - (b.1 : Int) else cmp a.2 b.2

/-- Lexicographic code-point comparison of character lists. -/
def ordCmpChars : List Char → List Char → Int
  | [], [] => 0
  | [], _ :: _ => -1
  | _ :: _, [] => 1
  | c :: cs, d :: ds => if c < d then -1 else if d < c then 1 else ordCmpChars cs ds

/-- A locale-independent ordinal string comparison (code-point order), the
comparison the spec prescribes for the non-numeric case. -/
def ordinalCmp (s t : String) : Int :=
  ordCmpChars s.data t.data

/-- A representative locale-sensitive `localeCompare`: like the default ICU
collation it orders case-insensitively first (`"a"` before `"B"`), falling
back to code-point order. -/
def localeLikeCmp (s t : String) : Int :=
  if s.data.map Char.toLower = t.data.map Char.toLower then
    ordCmpChars s.data t.data
  else
    ordCmpChars (s.data.map Char.toLower) (t.data.map Char.toLower)

/-!
## Trace predicates and concrete instances used by the theorems
-/

/-- Concatenation of the store's responses to the scan commands of a trace:
the rows a sequence of scans accumulates. -/
def scansOutput {κ ρ : Type} (store : Store κ ρ) : List (Cmd κ) → List ρ
  | [] => []
  | .scan req :: rest => (store.scan req).items ++ scansOutput store rest
  | .describe _ :: rest => scansOutput store rest
  | .query _ :: rest => scansOutput store rest

/-- A trace of scan commands forms a continuation chain starting from
`cursor`: each scan's `ExclusiveStartKey` is the previous scan's
`LastEvaluatedKey` (the first scan starts at `cursor`). -/
def scanChain {κ ρ : Type} (store : Store κ ρ) : Option κ → List (Cmd κ) → Prop
  | _, [] => True
  | cursor, .scan req :: rest =>
    req.startKey = cursor ∧ scanChain store (store.scan req).lastEvaluatedKey rest
  | _, .describe _ :: _ => False
  | _, .query _ :: _ => False

/-- Both compared attribute values are JS numbers (the numeric-comparison
branch of the sort comparator). -/
def bothNums : JsValue → JsValue → Prop
  | .num _, .num _ => True
  | _, _ => False

/-- Concrete store whose exact-PK query returns two rows; used to exhibit the
server-side truncation of the exact strategy. -/
def exactStoreTwo : Store Nat Nat where
  keySchema := fun _ => ("userId", none)
  query := fun _ => .ok [100, 101]
  scan := fun _ => ⟨[], none⟩

/-- Concrete store with zero exact matches and two filtered-scan pages
(2 matching rows, then 1 matching row): the prefix-scan scenario. -/
def twoPageStore : Store Nat Nat where
  keySchema := fun _ => ("userId", none)
  query := fun _ => .ok []
  scan := fun req =>
    match req.startKey with
    | none => ⟨[1, 2], some 7⟩
    | some 7 => ⟨[3], none⟩
    | some _ => ⟨[], none⟩

/-- Concrete store whose exact-PK query throws (type mismatch) and whose scan
returns one exhausted page. -/
def throwingQueryStore : Store Nat Nat where
  keySchema := fun _ => ("userId", some "ts")
  query := fun _ => .error ()
  scan := fun _ => ⟨[9], none⟩

/-- Concrete store that honors the `Limit` parameter on scans (returns no
rows at all), used to witness the limit bound. -/
def emptyStore : Store Nat Nat where
  keySchema := fun _ => ("userId", none)
  query := fun _ => .ok []
  scan := fun _ => ⟨[], none⟩

/-- A concrete navigation state sitting on page 2 with a two-entry cursor
stack, as after one successful forward navigation. -/
def page2State : NavState Nat Nat :=
  ⟨"T", "", 25, 2, [none, some 4], some 8, [55]⟩

/-!
## Lemmas about the scan loop
-/

theorem scanSearchLoop_spec {κ ρ : Type} (store : Store κ ρ) (table : String)
    (fe : FilterExpr) (limit : Nat) :
    ∀ (fuel : Nat) (collected : List ρ) (cursor : Option κ)
      (c : List ρ) (l : Option κ) (t : List (Cmd κ)),
      scanSearchLoop store table fe limit fuel collected cursor = some (c, l, t) →
      c = collected ++ scansOutput store t ∧
      scanChain store cursor t ∧
      t ≠ [] ∧
      (∀ cmd ∈ t, ∃ req, cmd = Cmd.scan req ∧ req.table = table ∧
        req.filter = some fe ∧ req.limit = none) ∧
      (l ≠ none → limit ≤ c.length) := by
  intro fuel
  induction fuel with
  | zero =>
    intro collected cursor c l t h
    simp [scanSearchLoop] at h
  | succ n ih =>
    intro collected cursor c l t h
    simp only [scanSearchLoop] at h
    split at h
    · -- limit reached on this page
      rename_i hlim
      injection h with h
      injection h with hc h
      injection h with hl ht
      subst hc hl ht
      refine ⟨by simp [scansOutput], ⟨rfl, trivial⟩, by simp, ?_, fun _ => hlim⟩
      intro cmd hcmd
      simp at hcmd
      exact ⟨_, hcmd, rfl, rfl, rfl⟩
    · rename_i hlim
      split at h
      · -- store exhausted
        injection h with h
        injection h with hc h
        injection h with hl ht
        subst hc hl ht
        refine ⟨by simp [scansOutput], ⟨rfl, by rename_i heq; rw [heq]; trivial⟩,
                by simp, ?_, by simp⟩
        intro cmd hcmd
        simp at hcmd
        exact ⟨_, hcmd, rfl, rfl, rfl⟩
      · -- recurse
        rename_i k heq
        split at h
        · exact absurd h (by simp)
        · rename_i c2 l2 t2 hrec
          injection h with h
          injection h with hc h
          injection h with hl ht
          subst hc hl ht
          obtain ⟨h1, h2, _, h4, h5⟩ := ih _ _ c2 l2 t2 hrec
          refine ⟨by simp [scansOutput, h1], ⟨rfl, by rw [heq]; exact h2⟩,
                  by simp, ?_, h5⟩
          intro cmd hcmd
          rcases List.mem_cons.mp hcmd with hcmd | hcmd
          · exact ⟨_, hcmd, rfl, rfl, rfl⟩
          · exact h4 cmd hcmd

/-- The scan loop touches only the `scan` field of the store, so two stores
with the same scan behavior run it identically. -/
theorem scanSearchLoop_scan_congr {κ ρ : Type} (s1 s2 : Store κ ρ)
    (h : s1.scan = s2.scan) (table : String) (fe : FilterExpr) (limit : Nat) :
    ∀ (fuel : Nat) (collected : List ρ) (cursor : Option κ),
      scanSearchLoop s1 table fe limit fuel collected cursor =
      scanSearchLoop s2 table fe limit fuel collected cursor := by
  intro fuel
  induction fuel with
  | zero => intro collected cursor; rfl
  | succ n ih =>
    intro collected cursor
    simp only [scanSearchLoop, h, ih]

/-- In the search branch with a failed or empty exact lookup, the handler
runs the filtered scan loop and wraps its result. -/
theorem getItems_fallback_spec {κ ρ : Type} (store : Store κ ρ) (fuel : Nat)
    (table : String) (lp : Option Nat) (sk : Option κ) (sp : Option String)
    (hterm : (sp.map jsTrim).getD "" ≠ "")
    (hq : store.query ⟨table, (store.keySchema table).1, (sp.map jsTrim).getD ""⟩
            = .error () ∨
          store.query ⟨table, (store.keySchema table).1, (sp.map jsTrim).getD ""⟩
            = .ok [])
    (res : ItemsResponse κ ρ) (trace : List (Cmd κ))
    (h : getItems store fuel table lp sk sp = some (res, trace)) :
    ∃ collected lek scans,
      scanSearchLoop store table
        ⟨(store.keySchema table).1, (store.keySchema table).2,
         (sp.map jsTrim).getD ""⟩ (effectiveLimit lp) fuel [] sk
        = some (collected, lek, scans) ∧
      res = ⟨collected.take (effectiveLimit lp),
             if effectiveLimit lp ≤ collected.length then lek else none,
             some "scan-begins-with-pk-sk"⟩ ∧
      trace = Cmd.describe table ::
              Cmd.query ⟨table, (store.keySchema table).1, (sp.map jsTrim).getD ""⟩ ::
              scans := by
  simp only [getItems] at h
  rw [if_neg hterm] at h
  rcases hq with hq | hq <;> rw [hq] at h <;>
    simp only [List.length_nil, lt_irrefl, if_false] at h <;>
  · split at h
    · exact absurd h (by simp)
    · rename_i c2 l2 t2 hrec
      injection h with h
      injection h with hres htrace
      exact ⟨c2, l2, t2, hrec, hres.symm, htrace.symm⟩

/-!
## The claims
-/

/-- C1: for every dispatch of a non-empty search term in which the exact
partition-key lookup (QueryCommand) returns at least one row, the dispatcher
issues zero scan calls for that dispatch, and the returned outcome has
`strategyUsed = "exact"` (`"query-exact-pk"`) and `nextCursor = null`. -/
theorem C1_exact_short_circuit {κ ρ : Type} (store : Store κ ρ) (fuel : Nat)
    (table : String) (lp : Option Nat) (sk : Option κ) (sp : Option String)
    (rows : List ρ)
    (hterm : (sp.map jsTrim).getD "" ≠ "")
    (hq : store.query ⟨table, (store.keySchema table).1, (sp.map jsTrim).getD ""⟩
            = .ok rows)
    (hrows : rows ≠ []) :
    ∃ res trace,
      getItems store fuel table lp sk sp = some (res, trace) ∧
      res.searchStrategy = some "query-exact-pk" ∧
      res.lastKey = none ∧
      trace.filter Cmd.isScan = [] := by
  refine ⟨⟨rows.take (effectiveLimit lp), none, some "query-exact-pk"⟩,
          [Cmd.describe table,
           Cmd.query ⟨table, (store.keySchema table).1, (sp.map jsTrim).getD ""⟩],
          ?_, rfl, rfl, ?_⟩
  · simp only [getItems]
    rw [if_neg hterm, hq]
    simp [List.length_pos.mpr hrows]
  · simp [List.filter, Cmd.isScan]

theorem C1_witness :
    ∃ res : ItemsResponse Nat Nat, ∃ trace,
      getItems exactStoreTwo 1 "T" none none (some "abc") = some (res, trace) ∧
      res.searchStrategy = some "query-exact-pk" ∧
      res.lastKey = none ∧
      trace.filter Cmd.isScan = [] :=
  C1_exact_short_circuit exactStoreTwo 1 "T" none none (some "abc") [100, 101]
    (by decide) rfl (by decide)

/-- C2 counterexample: the exact lookup returns the two-row set `[100, 101]`,
yet with `?limit=1` the dispatch responds with only `[100]` — the handler
truncates server-side (`exactItems.slice(0, limit)`), so the outcome does
*not* carry the entire matching set regardless of the caller's page size. -/
theorem C2_counterexample :
    exactStoreTwo.query ⟨"T", "userId", "abc"⟩ = .ok [100, 101] ∧
    (getItems exactStoreTwo 1 "T" (some 1) none (some "abc")).map
      (fun p => p.1.items) = some [100] ∧
    [100] ≠ [100, 101] :=
  ⟨rfl, by decide, by decide⟩

/-- C2 (amended): for every dispatch of a non-empty search term resolved by
the exact strategy, the dispatcher issues the lookup as one logical call
(a single QueryCommand, no scans) and returns the first `min(limit, 1000)`
rows of the matching set — truncating server-side at the effective limit —
with `nextCursor = null` regardless of the caller-supplied page size. -/
theorem C2_exact_truncated_set {κ ρ : Type} (store : Store κ ρ) (fuel : Nat)
    (table : String) (lp : Option Nat) (sk : Option κ) (sp : Option String)
    (rows : List ρ)
    (hterm : (sp.map jsTrim).getD "" ≠ "")
    (hq : store.query ⟨table, (store.keySchema table).1, (sp.map jsTrim).getD ""⟩
            = .ok rows)
    (hrows : rows ≠ []) :
    getItems store fuel table lp sk sp =
      some (⟨rows.take (effectiveLimit lp), none, some "query-exact-pk"⟩,
            [Cmd.describe table,
             Cmd.query ⟨table, (store.keySchema table).1, (sp.map jsTrim).getD ""⟩]) := by
  simp only [getItems]
  rw [if_neg hterm, hq]
  simp [List.length_pos.mpr hrows]

theorem C2_witness :
    getItems exactStoreTwo 1 "T" (some 1) none (some "abc") =
      some ({ items := [100], lastKey := none, searchStrategy := some "query-exact-pk" },
            [Cmd.describe "T", Cmd.query ⟨"T", "userId", "abc"⟩]) :=
  C2_exact_truncated_set exactStoreTwo 1 "T" (some 1) none (some "abc") [100, 101]
    (by decide) rfl (by decide)

/-- C5: for every dispatch with a null/empty (or whitespace-only) search term,
and for any cursor and any page size, the dispatcher issues exactly one
unfiltered full scan bounded (via `Limit`) to the effective page size — no
filter predicate, no key-schema lookup, and no exact lookup — and returns the
store's page as-is. -/
theorem C5_no_search_full_scan {κ ρ : Type} (store : Store κ ρ) (fuel : Nat)
    (table : String) (lp : Option Nat) (sk : Option κ) (sp : Option String)
    (hterm : (sp.map jsTrim).getD "" = "") :
    getItems store fuel table lp sk sp =
      some (⟨(store.scan ⟨table, none, some (effectiveLimit lp), sk⟩).items,
             (store.scan ⟨table, none, some (effectiveLimit lp), sk⟩).lastEvaluatedKey,
             none⟩,
            [Cmd.scan ⟨table, none, some (effectiveLimit lp), sk⟩]) := by
  simp only [getItems]
  rw [if_pos hterm]

theorem C5_witness :
    getItems emptyStore 1 "T" (some 7) (some 3) (some "  ") =
      some ({ items := ([] : List Nat), lastKey := none, searchStrategy := none },
            [Cmd.scan ⟨"T", none, some 7, some 3⟩]) :=
  C5_no_search_full_scan emptyStore 1 "T" (some 7) (some 3) (some "  ") (by decide)

/-- C3: when the exact lookup of a non-empty search term yields zero rows,
the dispatcher loops over filtered scan pages — carrying the store's
continuation token forward — accumulating rows until the effective page size
is reached or the store reports exhaustion; on exhaustion it returns all
accumulated rows (possibly zero) with `nextCursor = null`.  In particular
(second conjunct), 3 matching rows spread over 2 internal store pages with
page size 25 come back in one outcome with exactly 2 scan calls. -/
theorem C3_filtered_scan_loop :
    (∀ {κ ρ : Type} (store : Store κ ρ) (fuel : Nat) (table : String)
       (lp : Option Nat) (sk : Option κ) (sp : Option String)
       (res : ItemsResponse κ ρ) (trace : List (Cmd κ)),
       (sp.map jsTrim).getD "" ≠ "" →
       store.query ⟨table, (store.keySchema table).1, (sp.map jsTrim).getD ""⟩
         = .ok [] →
       getItems store fuel table lp sk sp = some (res, trace) →
       ∃ scans,
         trace = Cmd.describe table ::
                 Cmd.query ⟨table, (store.keySchema table).1, (sp.map jsTrim).getD ""⟩ ::
                 scans ∧
         scanChain store sk scans ∧
         res.searchStrategy = some "scan-begins-with-pk-sk" ∧
         res.items = (scansOutput store scans).take (effectiveLimit lp) ∧
         (res.lastKey ≠ none →
            effectiveLimit lp ≤ (scansOutput store scans).length) ∧
         ((scansOutput store scans).length < effectiveLimit lp →
            res.lastKey = none ∧ res.items = scansOutput store scans)) ∧
    getItems twoPageStore 10 "T" none none (some "ab") =
      some ({ items := [1, 2, 3], lastKey := none,
              searchStrategy := some "scan-begins-with-pk-sk" },
            [Cmd.describe "T", Cmd.query ⟨"T", "userId", "ab"⟩,
             Cmd.scan ⟨"T", some ⟨"userId", none, "ab"⟩, none, none⟩,
             Cmd.scan ⟨"T", some ⟨"userId", none, "ab"⟩, none, some 7⟩]) := by
  constructor
  · intro κ ρ store fuel table lp sk sp res trace hterm hq h
    obtain ⟨collected, lek, scans, hloop, hres, htrace⟩ :=
      getItems_fallback_spec store fuel table lp sk sp hterm (Or.inr hq) res trace h
    obtain ⟨hc, hchain, -, -, hlast⟩ :=
      scanSearchLoop_spec store table _ _ fuel [] sk collected lek scans hloop
    rw [List.nil_append] at hc
    subst hc hres htrace
    refine ⟨scans, rfl, hchain, rfl, rfl, ?_, ?_⟩
    · intro hne
      split at hne
      · assumption
      · exact absurd rfl hne
    · intro hlt
      rw [if_neg (not_le.mpr hlt)]
      exact ⟨rfl, List.take_of_length_le (le_of_lt hlt)⟩
  · decide

theorem C3_witness :
    ∃ scans : List (Cmd Nat),
      [Cmd.describe "T", Cmd.query ⟨"T", "userId", "ab"⟩,
       Cmd.scan ⟨"T", some ⟨"userId", none, "ab"⟩, none, none⟩,
       Cmd.scan ⟨"T", some ⟨"userId", none, "ab"⟩, none, some 7⟩] =
        Cmd.describe "T" :: Cmd.query ⟨"T", "userId", "ab"⟩ :: scans ∧
      scanChain twoPageStore none scans ∧
      (some "scan-begins-with-pk-sk" : Option String) = some "scan-begins-with-pk-sk" ∧
      ([1, 2, 3] : List Nat) = (scansOutput twoPageStore scans).take (effectiveLimit none) ∧
      ((none : Option Nat) ≠ none →
         effectiveLimit none ≤ (scansOutput twoPageStore scans).length) ∧
      ((scansOutput twoPageStore scans).length < effectiveLimit none →
         (none : Option Nat) = none ∧
         ([1, 2, 3] : List Nat) = scansOutput twoPageStore scans) :=
  C3_filtered_scan_loop.1 twoPageStore 10 "T" none none (some "ab")
    ⟨[1, 2, 3], none, some "scan-begins-with-pk-sk"⟩
    [Cmd.describe "T", Cmd.query ⟨"T", "userId", "ab"⟩,
     Cmd.scan ⟨"T", some ⟨"userId", none, "ab"⟩, none, none⟩,
     Cmd.scan ⟨"T", some ⟨"userId", none, "ab"⟩, none, some 7⟩]
    (by decide) rfl (by decide)

/-- C4: a type-mismatch failure of the exact lookup is caught internally and
treated as zero rows — the dispatch result is the same as if the query had
returned an empty row set (second conjunct) — and in both the caught-error
case and the empty-result case the prefix-filtered scan path is entered
exactly once: the trace is the describe, the query, and then one non-empty
chained block of filtered scans (first conjunct). -/
theorem C4_type_mismatch_fallback :
    (∀ {κ ρ : Type} (store : Store κ ρ) (fuel : Nat) (table : String)
       (lp : Option Nat) (sk : Option κ) (sp : Option String)
       (res : ItemsResponse κ ρ) (trace : List (Cmd κ)),
       (sp.map jsTrim).getD "" ≠ "" →
       (store.query ⟨table, (store.keySchema table).1, (sp.map jsTrim).getD ""⟩
          = .error () ∨
        store.query ⟨table, (store.keySchema table).1, (sp.map jsTrim).getD ""⟩
          = .ok []) →
       getItems store fuel table lp sk sp = some (res, trace) →
       res.searchStrategy = some "scan-begins-with-pk-sk" ∧
       ∃ scans,
         trace = Cmd.describe table ::
                 Cmd.query ⟨table, (store.keySchema table).1, (sp.map jsTrim).getD ""⟩ ::
                 scans ∧
         scans ≠ [] ∧
         scanChain store sk scans ∧
         (∀ cmd ∈ scans, ∃ req, cmd = Cmd.scan req ∧ req.table = table ∧
            req.filter = some ⟨(store.keySchema table).1, (store.keySchema table).2,
                               (sp.map jsTrim).getD ""⟩ ∧
            req.limit = none)) ∧
    (∀ {κ ρ : Type} (store : Store κ ρ) (fuel : Nat) (table : String)
       (lp : Option Nat) (sk : Option κ) (sp : Option String),
       (sp.map jsTrim).getD "" ≠ "" →
       store.query ⟨table, (store.keySchema table).1, (sp.map jsTrim).getD ""⟩
         = .error () →
       getItems store fuel table lp sk sp =
       getItems
         { store with
           query := fun r =>
             if r = ⟨table, (store.keySchema table).1, (sp.map jsTrim).getD ""⟩
             then .ok [] else store.query r }
         fuel table lp sk sp) := by
  constructor
  · intro κ ρ store fuel table lp sk sp res trace hterm hq h
    obtain ⟨collected, lek, scans, hloop, hres, htrace⟩ :=
      getItems_fallback_spec store fuel table lp sk sp hterm hq res trace h
    obtain ⟨-, hchain, hne, hcmds, -⟩ :=
      scanSearchLoop_spec store table _ _ fuel [] sk collected lek scans hloop
    subst hres htrace
    exact ⟨rfl, scans, rfl, hne, hchain, hcmds⟩
  · intro κ ρ store fuel table lp sk sp hterm hq
    simp only [getItems]
    rw [if_neg hterm, if_neg hterm, hq]
    simp only [if_pos rfl]
    rw [scanSearchLoop_scan_congr store
         { store with
           query := fun r =>
             if r = ⟨table, (store.keySchema table).1, (sp.map jsTrim).getD ""⟩
             then .ok [] else store.query r } rfl]
    simp

theorem C4_witness :
    (some "scan-begins-with-pk-sk" : Option String) = some "scan-begins-with-pk-sk" ∧
    ∃ scans : List (Cmd Nat),
      [Cmd.describe "T", Cmd.query ⟨"T", "userId", "x"⟩,
       Cmd.scan ⟨"T", some ⟨"userId", some "ts", "x"⟩, none, none⟩] =
        Cmd.describe "T" :: Cmd.query ⟨"T", "userId", "x"⟩ :: scans ∧
      scans ≠ [] ∧
      scanChain throwingQueryStore none scans ∧
      (∀ cmd ∈ scans, ∃ req, cmd = Cmd.scan req ∧ req.table = "T" ∧
         req.filter = some ⟨"userId", some "ts", "x"⟩ ∧ req.limit = none) :=
  C4_type_mismatch_fallback.1 throwingQueryStore 2 "T" none none (some "x")
    ⟨[9], none, some "scan-begins-with-pk-sk"⟩
    [Cmd.describe "T", Cmd.query ⟨"T", "userId", "x"⟩,
     Cmd.scan ⟨"T", some ⟨"userId", some "ts", "x"⟩, none, none⟩]
    (by decide) (Or.inl rfl) (by decide)

/-- C10: the effective page limit is `min(n, 1000)` for a parsed `?limit=n`
(25 when absent, and no lower bound is applied — a limit of 0 stays 0), and
whenever the store honors the `Limit` field of scans, every successful
response of any branch carries at most that many items. -/
theorem C10_effective_limit_bound :
    (∀ n, effectiveLimit (some n) = min n 1000) ∧
    effectiveLimit none = 25 ∧
    effectiveLimit (some 0) = 0 ∧
    (∀ {κ ρ : Type} (store : Store κ ρ) (fuel : Nat) (table : String)
       (lp : Option Nat) (sk : Option κ) (sp : Option String)
       (res : ItemsResponse κ ρ) (trace : List (Cmd κ)),
       (∀ (req : ScanReq κ) (l : Nat), req.limit = some l →
          ((store.scan req).items).length ≤ l) →
       getItems store fuel table lp sk sp = some (res, trace) →
       res.items.length ≤ effectiveLimit lp) := by
  refine ⟨fun _ => rfl, rfl, rfl, ?_⟩
  intro κ ρ store fuel table lp sk sp res trace hstore h
  by_cases hterm : (sp.map jsTrim).getD "" = ""
  · simp only [getItems] at h
    rw [if_pos hterm] at h
    injection h with h
    injection h with hres htrace
    subst hres
    exact hstore _ _ rfl
  · simp only [getItems] at h
    rw [if_neg hterm] at h
    have hfb : ∀ (res2 : ItemsResponse κ ρ) (trace2 : List (Cmd κ)),
        (match scanSearchLoop store table
            ⟨(store.keySchema table).1, (store.keySchema table).2,
             (sp.map jsTrim).getD ""⟩ (effectiveLimit lp) fuel [] sk with
         | none => none
         | some (collected, lek, scans) =>
           some (⟨collected.take (effectiveLimit lp),
                  if effectiveLimit lp ≤ collected.length then lek else none,
                  some "scan-begins-with-pk-sk"⟩,
                 Cmd.describe table ::
                 Cmd.query ⟨table, (store.keySchema table).1, (sp.map jsTrim).getD ""⟩ ::
                 scans)) = some (res2, trace2) →
        res2.items.length ≤ effectiveLimit lp := by
      intro res2 trace2 h2
      split at h2
      · exact absurd h2 (by simp)
      · injection h2 with h2
        injection h2 with hres2 htrace2
        subst hres2
        simp [min_le_left]
    split at h
    · rename_i exactItems heq
      split at h
      · injection h with h
        injection h with hres htrace
        subst hres
        simp [min_le_left]
      · exact hfb res trace h
    · exact hfb res trace h

theorem C10_witness :
    (({ items := [], lastKey := none, searchStrategy := none } :
        ItemsResponse Nat Nat)).items.length ≤ effectiveLimit (some 3) :=
  C10_effective_limit_bound.2.2.2 emptyStore 1 "T" (some 3) none none
    ⟨[], none, none⟩ [Cmd.scan ⟨"T", none, some 3, none⟩]
    (fun _ l _ => Nat.zero_le l) (by decide)

/-- Every navigation transition preserves the cursor-stack invariant,
whether or not its fetch succeeded. -/
theorem navInv_navStep {κ ρ : Type} (s : NavState κ ρ) (a : NavAction κ ρ)
    (h : NavInv s) : NavInv (navStep s a) := by
  obtain ⟨h1, h2⟩ := h
  cases a with
  | next r =>
    cases hlk : s.lastKey with
    | none => simpa [navStep, hlk] using ⟨h1, h2⟩
    | some k =>
      cases r with
      | error e => simpa [navStep, hlk] using ⟨h1, h2⟩
      | ok res =>
        cases hcs : s.cursorStack with
        | nil => rw [hcs] at h2; simp at h2
        | cons x t =>
          rw [hcs] at h2
          simp only [List.head?_cons, Option.some.injEq] at h2
          subst h2
          refine ⟨?_, ?_⟩
          · simp only [navStep, hlk]
            simp [hcs, ← h1]
          · simp only [navStep, hlk]
            simp [hcs]
  | prev r =>
    by_cases hp : s.currentPage ≤ 1
    · simpa [navStep, hp] using ⟨h1, h2⟩
    · cases r with
      | error e => simpa [navStep, hp] using ⟨h1, h2⟩
      | ok res =>
        have hlen : 2 ≤ s.cursorStack.length := by omega
        cases hcs : s.cursorStack with
        | nil => rw [hcs] at hlen; simp at hlen
        | cons x t =>
          cases t with
          | nil => rw [hcs] at hlen; simp at hlen
          | cons y t2 =>
            rw [hcs] at h2
            simp only [List.head?_cons, Option.some.injEq] at h2
            subst h2
            refine ⟨?_, ?_⟩
            · simp only [navStep, if_neg hp]
              simp [List.length_dropLast, ← h1, hcs]
            · simp only [navStep, if_neg hp]
              simp [hcs, List.dropLast]
  | setSize n r => cases r <;> exact ⟨rfl, rfl⟩
  | commit term r => cases r <;> exact ⟨rfl, rfl⟩
  | clear r => cases r <;> exact ⟨rfl, rfl⟩
  | switch t r => cases r <;> exact ⟨rfl, rfl⟩

/-- C6: starting from `{stack: [null], pageNumber: 1}`, every sequence of
next/previous/reset transitions keeps `stack.length == pageNumber` (with the
page-1 `null` sentinel at the bottom, so the current cursor is `null` on
page 1), and whenever a transition's fetch succeeds, the cursor it fetched
with is the top `stack[stack.length - 1]` of the resulting stack. -/
theorem C6_cursor_stack_invariant :
    (∀ (κ ρ : Type) (acts : List (NavAction κ ρ)),
       NavInv (acts.foldl navStep (initNavState κ ρ)) ∧
       ((acts.foldl navStep (initNavState κ ρ)).currentPage = 1 →
          currentCursor (acts.foldl navStep (initNavState κ ρ)) = none)) ∧
    (∀ (κ ρ : Type) (s : NavState κ ρ) (a : NavAction κ ρ) (c : Option κ),
       a.ok → navFetchCursor s a = some c →
       currentCursor (navStep s a) = c) := by
  constructor
  · intro κ ρ acts
    have hinv : ∀ (l : List (NavAction κ ρ)) (s : NavState κ ρ), NavInv s →
        NavInv (l.foldl navStep s) := by
      intro l
      induction l with
      | nil => intro s hs; exact hs
      | cons a l ih => intro s hs; exact ih _ (navInv_navStep s a hs)
    have h := hinv acts (initNavState κ ρ) ⟨rfl, rfl⟩
    refine ⟨h, ?_⟩
    intro hpage
    obtain ⟨h1, h2⟩ := h
    rw [hpage] at h1
    cases hcs : (acts.foldl navStep (initNavState κ ρ)).cursorStack with
    | nil => rw [hcs] at h1; simp at h1
    | cons x t =>
      rw [hcs] at h1 h2
      cases t with
      | nil =>
        simp only [List.head?_cons, Option.some.injEq] at h2
        subst h2
        simp [currentCursor, hcs]
      | cons y t2 => simp at h1
  · intro κ ρ s a c hok hc
    cases a with
    | next r =>
      obtain ⟨v, hv⟩ := hok
      subst hv
      cases hlk : s.lastKey with
      | none => rw [navFetchCursor, hlk] at hc; exact absurd hc (by simp)
      | some k =>
        rw [navFetchCursor, hlk] at hc
        injection hc with hc
        subst hc
        simp [navStep, hlk, currentCursor, List.getLast?_append_cons]
    | prev r =>
      obtain ⟨v, hv⟩ := hok
      subst hv
      by_cases hp : s.currentPage ≤ 1
      · rw [navFetchCursor, if_pos hp] at hc; exact absurd hc (by simp)
      · rw [navFetchCursor, if_neg hp] at hc
        injection hc with hc
        subst hc
        simp [navStep, if_neg hp, currentCursor]
    | setSize n r =>
      obtain ⟨v, hv⟩ := hok
      subst hv
      injection hc with hc
    | commit term r =>
      obtain ⟨v, hv⟩ := hok
      subst hv
      injection hc with hc
    | clear r =>
      obtain ⟨v, hv⟩ := hok
      subst hv
      injection hc with hc
    | switch t r =>
      obtain ⟨v, hv⟩ := hok
      subst hv
      injection hc with hc

theorem C6_witness :
    NavInv (([NavAction.next (.ok ⟨[1], some 2⟩),
              NavAction.prev (.ok ⟨[3], some 4⟩)] : List (NavAction Nat Nat)).foldl
             navStep (initNavState Nat Nat)) ∧
    currentCursor (navStep page2State (.prev (.ok ⟨[7], none⟩))) = none :=
  ⟨(C6_cursor_stack_invariant.1 Nat Nat
      [NavAction.next (.ok ⟨[1], some 2⟩), NavAction.prev (.ok ⟨[3], some 4⟩)]).1,
   C6_cursor_stack_invariant.2 Nat Nat page2State (.prev (.ok ⟨[7], none⟩)) none
     ⟨⟨[7], none⟩, rfl⟩ (by decide)⟩

/-- C7 counterexample: a page-size change whose fetch fails while on page 2
does mutate the navigation state — the handler resets `currentPage` to 1 and
the cursor stack to `[null]` *before* awaiting the fetch — refuting the claim
that a failed fetch leaves the CursorStack and page number unchanged for
page-size-change (and search commit/clear) actions. -/
theorem C7_counterexample :
    (navStep page2State (.setSize 50 (.error ()))).currentPage = 1 ∧
    (navStep page2State (.setSize 50 (.error ()))).cursorStack.length = 1 ∧
    page2State.currentPage = 2 ∧
    page2State.cursorStack.length = 2 := by
  exact ⟨rfl, rfl, rfl, rfl⟩

/-- C7 (amended): a failed fetch during next-page or previous-page navigation
leaves the entire state (stack, page number, displayed rows) unchanged; a
failed fetch during page-size change or search commit/clear leaves the
displayed rows unchanged but resets the navigation state to page 1 with stack
`[null]`, because those handlers reset it before awaiting the fetch. -/
theorem C7_failed_fetch_navigation :
    (∀ (κ ρ : Type) (s : NavState κ ρ),
       navStep s (.next (.error ())) = s) ∧
    (∀ (κ ρ : Type) (s : NavState κ ρ),
       navStep s (.prev (.error ())) = s) ∧
    (∀ (κ ρ : Type) (s : NavState κ ρ) (n : Nat),
       (navStep s (.setSize n (.error ()))).items = s.items ∧
       (navStep s (.setSize n (.error ()))).currentPage = 1 ∧
       (navStep s (.setSize n (.error ()))).cursorStack = [none]) ∧
    (∀ (κ ρ : Type) (s : NavState κ ρ) (term : String),
       (navStep s (.commit term (.error ()))).items = s.items ∧
       (navStep s (.commit term (.error ()))).currentPage = 1 ∧
       (navStep s (.commit term (.error ()))).cursorStack = [none]) ∧
    (∀ (κ ρ : Type) (s : NavState κ ρ),
       (navStep s (.clear (.error ()))).items = s.items ∧
       (navStep s (.clear (.error ()))).currentPage = 1 ∧
       (navStep s (.clear (.error ()))).cursorStack = [none]) := by
  refine ⟨?_, ?_, ?_, ?_, ?_⟩
  · intro κ ρ s
    cases hlk : s.lastKey <;> simp [navStep, hlk]
  · intro κ ρ s
    by_cases hp : s.currentPage ≤ 1 <;> simp [navStep, hp]
  · intro κ ρ s n; exact ⟨rfl, rfl, rfl⟩
  · intro κ ρ s term; exact ⟨rfl, rfl, rfl⟩
  · intro κ ρ s; exact ⟨rfl, rfl, rfl⟩

/-- Ceiling division on naturals characterized by its Galois connection. -/
theorem natCeilDiv_le_iff (a b c : Nat) (hb : 0 < b) :
    (a + b - 1) / b ≤ c ↔ a ≤ b * c := by
  rw [Nat.div_le_iff_le_mul_add_pred hb]
  omega

/-- The natural-number formula `(a + b - 1) / b` computes the real ceiling
`⌈a / b⌉` used in the source's `Math.ceil(itemCount / pageSize)`. -/
theorem natCeilDiv_eq_ceil (a b : Nat) (hb : 0 < b) :
    (a + b - 1) / b = ⌈(a : ℚ) / (b : ℚ)⌉₊ := by
  have h2 : ∀ c : Nat, ⌈(a : ℚ) / (b : ℚ)⌉₊ ≤ c ↔ a ≤ b * c := by
    intro c
    rw [Nat.ceil_le, div_le_iff₀ (by exact_mod_cast hb : (0 : ℚ) < b), mul_comm]
    norm_cast
  exact le_antisymm
    ((natCeilDiv_le_iff a b _ hb).mpr ((h2 _).mp le_rfl))
    ((h2 _).mpr ((natCeilDiv_le_iff a b _ hb).mp le_rfl))

/-- C8: the approximate page-count estimator returns `null` whenever a search
term is active (for any metadata and any page size), and otherwise returns
`ceil(approxRowCount / pageSize)` floored at 1; in particular it returns 40
for 1000 rows at page size 25 with no active search. -/
theorem C8_approx_total_pages :
    (∀ (meta : Option TableMeta) (ps : Nat) (term : String),
       term ≠ "" → approxTotalPages meta term ps = none) ∧
    (∀ (m : TableMeta) (ps : Nat), 0 < ps →
       approxTotalPages (some m) "" ps =
         some (max 1 ⌈(m.itemCount : ℚ) / (ps : ℚ)⌉₊)) ∧
    approxTotalPages (some ⟨1000, 0⟩) "" 25 = some 40 := by
  refine ⟨?_, ?_, rfl⟩
  · intro meta ps term hterm
    cases meta with
    | none => rfl
    | some m => simp [approxTotalPages, hterm]
  · intro m ps hps
    simp [approxTotalPages, natCeilDiv_eq_ceil m.itemCount ps hps]

theorem C8_witness :
    approxTotalPages (some ⟨1000, 0⟩) "x" 25 = none ∧
    approxTotalPages (some ⟨1000, 0⟩) "" 25 =
      some (max 1 ⌈((1000 : Nat) : ℚ) / ((25 : Nat) : ℚ)⌉₊) :=
  ⟨C8_approx_total_pages.1 (some ⟨1000, 0⟩) 25 "x" (by decide),
   C8_approx_total_pages.2.1 ⟨1000, 0⟩ 25 (by decide)⟩

/-!
## Stability of the comparator sort
-/

theorem insertCmp_perm {α : Type} (cmp : α → α → Int) (x : α) :
    ∀ l : List α, (insertCmp cmp x l).Perm (x :: l) := by
  intro l
  induction l with
  | nil => exact List.Perm.refl _
  | cons y ys ih =>
    by_cases h : cmp x y ≤ 0
    · simp only [insertCmp, if_pos h]
      exact List.Perm.refl _
    · simp only [insertCmp, if_neg h]
      exact (ih.cons y).trans (List.Perm.swap x y ys)

theorem stableSortCmp_perm {α : Type} (cmp : α → α → Int) :
    ∀ l : List α, (stableSortCmp cmp l).Perm l := by
  intro l
  induction l with
  | nil => exact List.Perm.refl _
  | cons x xs ih => exact (insertCmp_perm cmp x _).trans (ih.cons x)

theorem mem_enumFrom_fst {α : Type} :
    ∀ (l : List α) (n : Nat) (p : Nat × α), p ∈ List.enumFrom n l → n ≤ p.1 := by
  intro l
  induction l with
  | nil => intro n p hp; simp [List.enumFrom] at hp
  | cons x xs ih =>
    intro n p hp
    rcases List.mem_cons.mp hp with hp | hp
    · subst hp; exact le_rfl
    · exact le_of_lt (Nat.lt_of_succ_le (ih (n + 1) p hp))

/-- Inserting an element whose index is below every index in the list behaves
like plain insertion after forgetting the indices: the index tie-break never
changes a decision that `cmp` already makes, and on ties the smaller index
wins exactly as plain stable insertion does. -/
theorem insertCmp_idx {α : Type} (cmp : α → α → Int) (n : Nat) (x : α) :
    ∀ ps : List (Nat × α), (∀ p ∈ ps, n < p.1) →
      (insertCmp (idxCmp cmp) (n, x) ps).map Prod.snd =
      insertCmp cmp x (ps.map Prod.snd) := by
  intro ps
  induction ps with
  | nil => intro _; rfl
  | cons q qs ih =>
    intro h
    obtain ⟨j, y⟩ := q
    have hj : n < j := h (j, y) (List.mem_cons_self _ _)
    by_cases h0 : cmp x y = 0
    · have hcond : idxCmp cmp (n, x) (j, y) ≤ 0 := by
        simp only [idxCmp, h0, if_pos rfl]
        omega
      simp only [insertCmp, List.map_cons]
      rw [if_pos hcond, if_pos (le_of_eq h0)]
      simp
    · have heq : idxCmp cmp (n, x) (j, y) = cmp x y := by
        simp [idxCmp, h0]
      by_cases hle : cmp x y ≤ 0
      · simp only [insertCmp, List.map_cons]
        rw [if_pos (heq ▸ hle), if_pos hle]
        simp
      · simp only [insertCmp, List.map_cons]
        rw [if_neg (heq ▸ hle), if_neg hle, List.map_cons,
            ih (fun p hp => h p (List.mem_cons_of_mem _ hp))]

/-- Sorting index-decorated elements by the comparator with an original-index
tie-break, then forgetting the indices, gives exactly the stable comparator
sort: the statement that ties preserve original order. -/
theorem stableSortCmp_stable {α : Type} (cmp : α → α → Int) :
    ∀ (l : List α) (n : Nat),
      (stableSortCmp (idxCmp cmp) (List.enumFrom n l)).map Prod.snd =
      stableSortCmp cmp l := by
  intro l
  induction l with
  | nil => intro n; rfl
  | cons x xs ih =>
    intro n
    have hmem : ∀ p ∈ stableSortCmp (idxCmp cmp) (List.enumFrom (n + 1) xs),
        n < p.1 := by
      intro p hp
      have hp2 : p ∈ List.enumFrom (n + 1) xs :=
        (stableSortCmp_perm _ _).mem_iff.mp hp
      exact Nat.lt_of_succ_le (mem_enumFrom_fst xs (n + 1) p hp2)
    calc (stableSortCmp (idxCmp cmp) (List.enumFrom n (x :: xs))).map Prod.snd
        = (insertCmp (idxCmp cmp) (n, x)
             (stableSortCmp (idxCmp cmp) (List.enumFrom (n + 1) xs))).map Prod.snd := rfl
      _ = insertCmp cmp x
            ((stableSortCmp (idxCmp cmp) (List.enumFrom (n + 1) xs)).map Prod.snd) :=
          insertCmp_idx cmp n x _ hmem
      _ = insertCmp cmp x (stableSortCmp cmp xs) := by rw [ih (n + 1)]
      _ = stableSortCmp cmp (x :: xs) := rfl

/-- C9 counterexample: the comparator uses the host's `localeCompare`, which
is not a locale-independent ordinal comparison.  Under a representative
ICU-like host collation (lowercase-first ordering), the page
`[{c: "a"}, {c: "B"}]` sorts differently from the ordinal (code-point)
order the claim prescribes. -/
theorem C9_counterexample :
    sortedItems localeLikeCmp (some "c") .asc
      [[("c", .str "a")], [("c", .str "B")]] ≠
    sortedItems ordinalCmp (some "c") .asc
      [[("c", .str "a")], [("c", .str "B")]] := by
  decide

/-- C9 (amended): the page sort is stable — sorting equals sorting with the
original fetch position as the tie-break — the comparator compares
numerically when both values are numbers and otherwise hands the two string
representations to the host's (locale-sensitive) `localeCompare`, and the
descending comparator is the exact negation of the ascending one. -/
theorem C9_page_sort :
    (∀ (lc : String → String → Int) (col : String) (dir : SortDir)
       (items : List Item),
       sortedItems lc (some col) dir items =
       (stableSortCmp (idxCmp (dirCmp dir (itemCmp lc col)))
          (List.enumFrom 0 items)).map Prod.snd) ∧
    (∀ (lc : String → String → Int) (col : String) (a b : Item) (x y : Int),
       a.getAttr col = .num x → b.getAttr col = .num y →
       itemCmp lc col a b = x - y) ∧
    (∀ (lc : String → String → Int) (col : String) (a b : Item),
       ¬ bothNums (a.getAttr col) (b.getAttr col) →
       itemCmp lc col a b =
         lc (a.getAttr col).jsToString (b.getAttr col).jsToString) ∧
    (∀ {α : Type} (cmp : α → α → Int) (a b : α),
       dirCmp .desc cmp a b = -(dirCmp .asc cmp a b)) := by
  refine ⟨?_, ?_, ?_, ?_⟩
  · intro lc col dir items
    exact (stableSortCmp_stable (dirCmp dir (itemCmp lc col)) items 0).symm
  · intro lc col a b x y hx hy
    rw [itemCmp, hx, hy]
  · intro lc col a b hnn
    rw [itemCmp]
    rcases ha : a.getAttr col with n | s | v | _ | _ <;>
      rcases hb : b.getAttr col with m | t | w | _ | _ <;>
      first
        | rfl
        | (exfalso; apply hnn; rw [ha, hb]; trivial)
  · intro α cmp a b
    rfl

theorem C9_witness :
    sortedItems localeLikeCmp (some "c") .asc
      [[("c", JsValue.str "a")], [("c", JsValue.str "B")]] =
    (stableSortCmp
       (idxCmp (dirCmp .asc (itemCmp localeLikeCmp "c")))
       (List.enumFrom 0 [[("c", JsValue.str "a")], [("c", JsValue.str "B")]])).map
      Prod.snd ∧
    itemCmp localeLikeCmp "c" [("c", JsValue.num 3)] [("c", JsValue.num 5)] = 3 - 5 :=
  ⟨C9_page_sort.1 localeLikeCmp "c" .asc
     [[("c", JsValue.str "a")], [("c", JsValue.str "B")]],
   C9_page_sort.2.1 localeLikeCmp "c"
     [("c", JsValue.num 3)] [("c", JsValue.num 5)] 3 5 rfl rfl⟩

end DynamoStudio
